import Mathlib

/-!
A shallow embedding in Lean 4 of the state-sync / restore / process-supervision
core of the `openclaw-cloudflare` worker, together with proofs about its
behaviour.

Conventions of the embedding:

* JavaScript strings are Lean `String`s; the JS string primitives used by the
  source (`includes`, `startsWith`, `endsWith`, `slice`, `split`, `trim`,
  `lastIndexOf`, one-occurrence `replace`) are modelled as structurally
  recursive functions over `String.data` so that every definition evaluates
  inside the kernel.  All inputs of interest are ASCII, where JS UTF-16 index
  arithmetic and Lean character lists agree.
* `JSON.parse` is modelled as an abstract decoder `jp : String → Option JValue`
  (`none` = the parse throws); theorems quantify over the decoder.
* A sandbox (the Cloudflare container) is modelled by the two streaming
  primitives the sync engine uses (`execStream`, `readFileStream`), each
  returning either the list of raw text chunks of the stream or an error
  (`Except.error` = the awaited promise rejects).
* The R2 bucket is an association list of key/value pairs; paginated listings
  are modelled by an arbitrary decomposition of the listed keys into pages
  (`pages.flatten` = the listed keys), which captures the cursor-driven
  do/while walks in the source.
* Sandbox-mutating calls made by the restore path (`writeFile`, `mkdir`) are
  recorded in an effect trace `SandboxTrace`.
-/

/-! ### JS string primitives, modelled on `List Char` -/

/-- Does `pat` occur as a contiguous substring of `s`?  Models
`String.prototype.includes` (always called with a nonempty pattern in the
source). -/
def listHasSub (pat : List Char) : List Char → Bool
  | [] => pat.isEmpty
  | c :: rest => pat.isPrefixOf (c :: rest) || listHasSub pat rest

/-- JS `s.includes(pat)`. -/
def hasSub (pat s : String) : Bool :=
  listHasSub pat.data s.data

/-- JS `s.startsWith(pat)`. -/
def jsStartsWith (pat s : String) : Bool :=
  pat.data.isPrefixOf s.data

/-- JS `s.endsWith(pat)`. -/
def jsEndsWith (pat s : String) : Bool :=
  pat.data.isSuffixOf s.data

/-- JS `s.slice(n)` (drop the first `n` characters). -/
def strDrop (s : String) (n : Nat) : String :=
  String.mk (s.data.drop n)

/-- JS `s.slice(0, n)` (take the first `n` characters). -/
def strTake (s : String) (n : Nat) : String :=
  String.mk (s.data.take n)

/-- JS `s.trim()` (drop leading and trailing whitespace). -/
def jsTrim (s : String) : String :=
  String.mk (((s.data.dropWhile Char.isWhitespace).reverse.dropWhile Char.isWhitespace).reverse)

/-- Split a character list at the first occurrence of `sep`, returning the
part before it and the part after it, or `none` when `sep` does not occur. -/
def breakOnSub (sep : List Char) : List Char → Option (List Char × List Char)
  | [] => none
  | c :: rest =>
    if sep.isPrefixOf (c :: rest) then some ([], (c :: rest).drop sep.length)
    else
      match breakOnSub sep rest with
      | some (pre, post) => some (c :: pre, post)
      | none => none

/-- Fuel-driven splitting worker; with fuel `l.length + 1` and a nonempty
separator it performs the full JS split. -/
def splitSub (sep : List Char) : Nat → List Char → List (List Char)
  | 0, l => [l]
  | fuel + 1, l =>
    match breakOnSub sep l with
    | none => [l]
    | some (pre, post) => pre :: splitSub sep fuel post

/-- JS `s.split(sep)` for a nonempty string separator. -/
def jsSplit (sep s : String) : List String :=
  (splitSub sep.data (s.data.length + 1) s.data).map String.mk

/-- JS `s.replace(pat, '')`: remove the *first* occurrence of `pat` only. -/
def replaceFirst (s pat : String) : String :=
  match breakOnSub pat.data s.data with
  | none => s
  | some (pre, post) => String.mk (pre ++ post)

/-- JS `s.lastIndexOf(c)`, as an `Option Nat` (`none` = `-1`). -/
def lastIdxOf (c : Char) : List Char → Option Nat
  | [] => none
  | x :: xs =>
    match lastIdxOf c xs with
    | some i => some (i + 1)
    | none => if x = c then some 0 else none

/-- Index of the first occurrence of `c`. -/
def firstIdxOf (c : Char) : List Char → Option Nat
  | [] => none
  | x :: xs => if x = c then some 0 else (firstIdxOf c xs).map (· + 1)

/-! ### JSON values -/

/-- The result of a successful `JSON.parse`. -/
inductive JValue where
  | null : JValue
  | bool (b : Bool) : JValue
  | num (n : Int) : JValue
  | str (s : String) : JValue
  | arr (elems : List JValue) : JValue
  | obj (fields : List (String × JValue)) : JValue

/-- Field access `v[k]` on a parsed value; `none` models `undefined`. -/
def JValue.getField : JValue → String → Option JValue
  | .obj fields, k => fields.lookup k
  | _, _ => none

/-- Field access that additionally requires `typeof v[k] === 'string'`. -/
def JValue.strField (v : JValue) (k : String) : Option String :=
  match v.getField k with
  | some (.str s) => some s
  | _ => none

/-! ### Event Stream Parser (`parseSSEEvents`, src/gateway/sync.ts) -/

/-- Model of `parseSSEEvents` from `src/gateway/sync.ts`: split the raw stream text on
blank lines, trim each block, skip empty blocks, strip a leading `"data: "`,
and JSON-parse the remainder, skipping blocks that fail to parse.  The decoder
`jp` stands for `JSON.parse`. -/
def parseSSEEvents (jp : String → Option JValue) (raw : String) : List JValue :=
  (jsSplit "\n\n" raw).foldl
    (fun events block =>
      let line := jsTrim block
      if line = "" then events
      else
        let jsonStr := if jsStartsWith "data: " line then strDrop line 6 else line
        match jp jsonStr with
        | some v => events ++ [v]
        | none => events)
    []

/-- The specification-level description of the parser (§4.1 of the spec): the
in-order `filterMap` of the decoded non-empty blocks. -/
def parseSSEEventsSpec (jp : String → Option JValue) (raw : String) : List JValue :=
  (jsSplit "\n\n" raw).filterMap
    (fun block =>
      let line := jsTrim block
      if line = "" then none
      else jp (if jsStartsWith "data: " line then strDrop line 6 else line))

/-! ### Path cleanliness and container file listing -/

/-- Model of `isCleanPath` from `src/gateway/sync.ts`. -/
def isCleanPath (path : String) : Bool :=
  if hasSub "\"" path || hasSub "\x7b" path || hasSub "\x7d" path then false
  else if hasSub "\\n" path || hasSub "\\\\" path then false
  else if hasSub "timestamp" path && hasSub "data" path then false
  else if hasSub "tdout" path || hasSub "omplete" path then false
  else if hasSub "exitCode" path then false
  else true

/-- The `find` command string built by `listContainerFiles`. -/
def findCmd (dirPath : String) (excludeDirs : List String) : String :=
  let excludeArgs :=
    String.intercalate " " (excludeDirs.map (fun d => "-not -path \"*/" ++ d ++ "/*\""))
  "find " ++ dirPath ++ " -type f " ++ excludeArgs ++
    " -not -path \"*/.git/*\" -not -name \"*.lock\" -not -name \"*.log\" -not -name \"*.tmp\" 2>/dev/null || true"

/-- The two sandbox streaming primitives used by the sync engine.  A stream is
returned as its list of raw text chunks (`readStreamToString` in the source
concatenates them); `Except.error` models a rejected promise. -/
structure SandboxApi where
  execStream : String → Except Unit (List String)
  readFileStream : String → Except Unit (List String)

/-- Model of `readStreamToString` from `src/gateway/sync.ts`: concatenate the chunks. -/
def readStreamToString (chunks : List String) : String :=
  String.join chunks

/-- Model of `listContainerFiles` from `src/gateway/sync.ts`: run `find` through
`execStream`, parse the SSE events, and collect the paths printed on stdout,
keeping only nonempty absolute clean paths. -/
def listContainerFiles (jp : String → Option JValue) (sb : SandboxApi)
    (dirPath : String) (excludeDirs : List String) : Except Unit (List String) :=
  match sb.execStream (findCmd dirPath excludeDirs) with
  | .error e => .error e
  | .ok chunks =>
    let events := parseSSEEvents jp (readStreamToString chunks)
    .ok (events.foldl
      (fun acc evt =>
        match evt.getField "type", evt.strField "data" with
        | some (.str "stdout"), some d =>
          acc ++ ((jsSplit "\n" (jsTrim d)).filter
            (fun p => p ≠ "" && jsStartsWith "/" p && isCleanPath p))
        | _, _ => acc)
      [])

/-! ### The R2 bucket -/

/-- The R2 bucket binding, as an association list of key/value pairs. -/
structure Bucket where
  objs : List (String × String)
deriving DecidableEq, Repr

/-- Operation `bucket.get(key)` (the stored text). -/
def Bucket.get (b : Bucket) (k : String) : Option String :=
  b.objs.lookup k

/-- Operation `bucket.put(key, value)`: replace any existing entry for the key. -/
def Bucket.put (b : Bucket) (k v : String) : Bucket :=
  ⟨b.objs.filter (fun kv => kv.1 != k) ++ [(k, v)]⟩

/-- Operation `bucket.delete(key)`. -/
def Bucket.delete (b : Bucket) (k : String) : Bucket :=
  ⟨b.objs.filter (fun kv => kv.1 != k)⟩

/-- The keys of the bucket, in listing order. -/
def Bucket.keys (b : Bucket) : List String :=
  b.objs.map Prod.fst

/-! ### Corruption sweep (`cleanCorruptedR2Keys`, src/gateway/sync.ts) -/

/-- The corruption test applied to R2 keys by `cleanCorruptedR2Keys`:
`obj.key.includes('"') || obj.key.includes('{') || obj.key.includes('\\n')`. -/
def isCorruptKey (k : String) : Bool :=
  hasSub "\"" k || hasSub "\x7b" k || hasSub "\\n" k

/-- Model of `cleanCorruptedR2Keys` from `src/gateway/sync.ts`: walk the paginated
listing (`pages`) and delete every corrupt key.  `pages` stands for the
successive `list({cursor})` results of the do/while loop. -/
def cleanCorruptedR2Keys (pages : List (List String)) (b : Bucket) : Bucket :=
  pages.foldl
    (fun acc page =>
      page.foldl (fun bb k => if isCorruptKey k then bb.delete k else bb) acc)
    b

/-! ### Directory sync (`syncDirectory`, `syncToR2`, src/gateway/sync.ts) -/

/-- Reconstruct a file's content from its parsed stream events: concatenate
the `data` payloads of the `chunk` events, in order. -/
def fileContentFromEvents (events : List JValue) : String :=
  events.foldl
    (fun acc evt =>
      match evt.getField "type", evt.strField "data" with
      | some (.str "chunk"), some d => acc ++ d
      | _, _ => acc)
    ""

/-- Read one file through `readFileStream` and reconstruct its content;
`none` models a rejected read (caught per-file by `syncDirectory`). -/
def readFileContent (jp : String → Option JValue) (sb : SandboxApi)
    (path : String) : Option String :=
  match sb.readFileStream path with
  | .error _ => none
  | .ok chunks => some (fileContentFromEvents (parseSSEEvents jp (readStreamToString chunks)))

/-- The R2 key for a synced file: `` `${r2Prefix}/${filePath.slice(containerDir.length + 1)}` ``. -/
def r2KeyOf (containerDir r2Pfx filePath : String) : String :=
  r2Pfx ++ "/" ++ strDrop filePath (containerDir.length + 1)

/-- One iteration of the per-file loop of `syncDirectory`: on a successful
read with nonempty reconstructed content, upload and count; otherwise skip. -/
def syncStep (jp : String → Option JValue) (sb : SandboxApi)
    (containerDir r2Pfx : String) (acc : Bucket × Nat) (filePath : String) : Bucket × Nat :=
  match readFileContent jp sb filePath with
  | none => acc
  | some fileContent =>
    if fileContent = "" then acc
    else ((acc.1).put (r2KeyOf containerDir r2Pfx filePath) fileContent, acc.2 + 1)

/-- Keep predicate of the per-file loop: read succeeded and content nonempty. -/
def keepFile (jp : String → Option JValue) (sb : SandboxApi) (filePath : String) : Bool :=
  (readFileContent jp sb filePath).getD "" != ""

/-- Model of `syncDirectory` from `src/gateway/sync.ts`: list the directory and upload
every listed file whose reconstructed content is nonempty, returning the
updated bucket and the count of synced files. -/
def syncDirectory (jp : String → Option JValue) (sb : SandboxApi) (b : Bucket)
    (containerDir r2Pfx : String) (excludeDirs : List String) : Except Unit (Bucket × Nat) :=
  match listContainerFiles jp sb containerDir excludeDirs with
  | .error e => .error e
  | .ok files => .ok (files.foldl (syncStep jp sb containerDir r2Pfx) (b, 0))

/-- Does the directory probe of `syncToR2` find listable files here?  (The
`try { ... } catch {}` around each probe maps a rejected listing to `false`.) -/
def dirHasFiles (jp : String → Option JValue) (sb : SandboxApi) (dirPath : String) : Bool :=
  match listContainerFiles jp sb dirPath [] with
  | .ok files => files.length > 0
  | .error _ => false

/-- The config-directory probe of `syncToR2`: primary path, then legacy path. -/
def detectConfigDir (jp : String → Option JValue) (sb : SandboxApi) : Option String :=
  if dirHasFiles jp sb "/root/.openclaw" then some "/root/.openclaw"
  else if dirHasFiles jp sb "/root/.clawdbot" then some "/root/.clawdbot"
  else none

/-- The `try { ... } catch { /* might not exist yet */ }` around an optional
tree's sync: a rejected pass contributes the unchanged bucket and zero
files. -/
def catchSync : Except Unit (Bucket × Nat) → Bucket → Bucket × Nat
  | .ok r, _ => r
  | .error _, b => (b, 0)

/-- The optional-tree phase of `syncToR2` run after the config tree: the
workspace directory (excluding `skills`) and the skills directory, each under
its own catch, accumulating onto the config tree's result. -/
def syncRest (jp : String → Option JValue) (sb : SandboxApi) (p : Bucket × Nat) :
    Bucket × Nat :=
  let wres := catchSync (syncDirectory jp sb p.1 "/root/clawd" "workspace" ["skills"]) p.1
  let sres := catchSync (syncDirectory jp sb wres.1 "/root/clawd/skills" "skills" []) wres.1
  (sres.1, p.2 + wres.2 + sres.2)

/-- The three-tree sync phase of `syncToR2`: config directory, workspace
(excluding `skills`), and skills, the latter two with their own
`try { ... } catch {}` so a rejected listing contributes zero files. -/
def syncTrees (jp : String → Option JValue) (sb : SandboxApi) (b : Bucket)
    (configDir : String) : Except Unit (Bucket × Nat) :=
  match syncDirectory jp sb b configDir "openclaw" [] with
  | .error e => .error e
  | .ok p => .ok (syncRest jp sb p)

/-- The result record of `syncToR2`. -/
structure SyncResult where
  success : Bool
  lastSync : Option String := none
  error : Option String := none
  details : Option String := none
deriving DecidableEq, Repr

/-- Model of `syncToR2` from `src/gateway/sync.ts`.  `bucketConfigured` models the
`env.MOLTBOT_BUCKET` binding check, `pg` the pagination the bucket listing
presents to the corruption sweep, and `now` the value of
`new Date().toISOString()` at the marker write. -/
def syncToR2 (jp : String → Option JValue) (pg : List String → List (List String))
    (sb : SandboxApi) (bucketConfigured : Bool) (b : Bucket) (now : String) :
    SyncResult × Bucket :=
  if bucketConfigured = false then
    ({ success := false, error := some "R2 bucket binding not configured" }, b)
  else
    match detectConfigDir jp sb with
    | none =>
      ({ success := false, error := some "Nothing to sync",
         details := some "No config directory found in the container. Pair a device first to generate config." }, b)
    | some configDir =>
      let b1 := cleanCorruptedR2Keys (pg b.keys) b
      match syncTrees jp sb b1 configDir with
      | .error _ =>
        ({ success := false, error := some "Sync error", details := some "Unknown error" }, b1)
      | .ok (b2, totalFiles) =>
        if totalFiles > 0 then
          ({ success := true, lastSync := some now,
             details := some ("Synced " ++ toString totalFiles ++ " files to R2 (direct file transfer)") },
           b2.put ".last-sync" now)
        else
          ({ success := false, error := some "Nothing to sync",
             details := some "Config directory exists but contained no syncable files." }, b2)

/-! ### Restore engine (`restoreFromR2`, `restorePrefix`, `shouldSkipKey`) -/

/-- Constant `SKIP_EXTENSIONS` from the restore module. -/
def SKIP_EXTENSIONS : List String :=
  [".jsonl", ".bak"]

/-- Model of `shouldSkipKey` from the restore module: directory markers, keys
containing a skip-extension substring, and corrupt keys. -/
def shouldSkipKey (key : String) : Bool :=
  if jsEndsWith "/" key then true
  else if SKIP_EXTENSIONS.any (fun ext => hasSub ext key) then true
  else if hasSub "\"" key || hasSub "\x7b" key || hasSub "\\n" key then true
  else false

/-- The trace of sandbox-mutating calls performed by the restore path. -/
structure SandboxTrace where
  writes : List (String × String)
  mkdirs : List String
deriving DecidableEq, Repr

/-- Operation `sandbox.writeFile(path, content)`. -/
def SandboxTrace.writeFile (st : SandboxTrace) (path content : String) : SandboxTrace :=
  { st with writes := st.writes ++ [(path, content)] }

/-- Operation `sandbox.mkdir(dir, recursive)`. -/
def SandboxTrace.mkdirRec (st : SandboxTrace) (dir : String) : SandboxTrace :=
  { st with mkdirs := st.mkdirs ++ [dir] }

/-- Model of `mkdirCached` from the restore module: create the directory only when it
is not in the per-pass cache; errors are swallowed and the directory is cached
either way. -/
def mkdirCached (st : SandboxTrace) (dir : String) (cache : List String) :
    SandboxTrace × List String :=
  if dir ∈ cache then (st, cache)
  else (st.mkdirRec dir, cache ++ [dir])

/-- The parent-directory step of the per-object restore loop:
`lastIndexOf('/')` on the container path, and a cached `mkdir` when the last
slash is at a positive index. -/
def ensureParentDir (st : SandboxTrace) (cache : List String) (containerPath : String) :
    SandboxTrace × List String :=
  match lastIdxOf '/' containerPath.data with
  | some i => if 0 < i then mkdirCached st (strTake containerPath i) cache else (st, cache)
  | none => (st, cache)

/-- One iteration of the per-object loop of the restore pass (the body of the
`for (const obj of listResult.objects)` loop in `restorePrefix`). -/
def restoreStep (b : Bucket) (dir pfx : String)
    (acc : SandboxTrace × List String × Nat) (key : String) :
    SandboxTrace × List String × Nat :=
  if shouldSkipKey key then acc
  else
    let relativePath := strDrop key pfx.length
    if relativePath = "" then acc
    else
      let containerPath := dir ++ "/" ++ relativePath
      let stc := ensureParentDir acc.1 acc.2.1 containerPath
      match b.get key with
      | none => (stc.1, stc.2, acc.2.2)
      | some content => (stc.1.writeFile containerPath content, stc.2, acc.2.2 + 1)

/-- Model of `restorePrefix` from the restore module (carrying a neutral
name in this file): ensure the target directory exists, then
walk the paginated listing of the objects under the given R2 key namespace
and write every non-skipped object into the container, returning the updated
trace and the count of restored files. -/
def restoreObjects (b : Bucket) (pages : List (List String)) (st : SandboxTrace)
    (pfx dir : String) : SandboxTrace × Nat :=
  let start := mkdirCached st dir []
  let res := pages.foldl
    (fun acc page => page.foldl (restoreStep b dir pfx) acc)
    (start.1, start.2, 0)
  (res.1, res.2.2)

/-- The keys a `list({ prefix })` call reports: the bucket keys extending the
given key namespace, in listing order. -/
def keysUnder (b : Bucket) (pfx : String) : List String :=
  b.keys.filter (fun k => jsStartsWith pfx k)

/-- Model of `restoreFromR2` from the restore module: skip when the bucket binding is
missing or no `.last-sync` marker exists; otherwise restore the `openclaw/`
and `workspace/` namespaces (the two entries of `RESTORE_PREFIXES`, in order)
and, when at least one file was restored, write the marker into the config
directory. -/
def restoreFromR2 (pg : List String → List (List String)) (b : Bucket)
    (configured : Bool) (st : SandboxTrace) : Bool × SandboxTrace :=
  if configured = false then (false, st)
  else
    match b.get ".last-sync" with
    | none => (false, st)
    | some lastSync =>
      let r1 := restoreObjects b (pg (keysUnder b "openclaw/")) st "openclaw/" "/root/.openclaw"
      let r2 := restoreObjects b (pg (keysUnder b "workspace/")) r1.1 "workspace/" "/root/clawd"
      if r1.2 + r2.2 > 0 then (true, (r2.1).writeFile "/root/.openclaw/.last-sync" lastSync)
      else (false, r2.1)

/-! ### Bounded Command Runner (`execCommand`, admin API module) -/

/-- The completion sentinel appended to the output file. -/
def DONE_MARKER : String :=
  "__EXEC_DONE__"

/-- Did a read observe the completion sentinel? -/
def observesDone (r : Option String) : Bool :=
  match r with
  | some c => hasSub DONE_MARKER c
  | none => false

/-- Model of `execCommand` from the admin API module.  The initial
`await sandbox.startProcess(shellCmd)` is not wrapped in any try/catch, so a
rejection there (`ps = .error`) propagates to the caller as an exception;
after a successful start the returned value is a function of the two reads of
the output file (`r1` = first read, `r2` = retry; `none` models a `null` from
`readFile`, which catches internally and never throws).  The sleeps do not
affect the returned value. -/
def execCommand (ps : Except Unit Unit) (r1 r2 : Option String) : Except Unit String :=
  match ps with
  | .error e => .error e
  | .ok _ =>
    .ok
      (match r1 with
       | some content =>
         if hasSub DONE_MARKER content then jsTrim (replaceFirst content DONE_MARKER)
         else
           match r2 with
           | some retry => jsTrim (replaceFirst retry DONE_MARKER)
           | none => jsTrim (replaceFirst content DONE_MARKER)
       | none =>
         match r2 with
         | some retry => jsTrim (replaceFirst retry DONE_MARKER)
         | none => "")

/-! ### Orphaned-process cleanup (`cleanupOrphanedProcesses`, admin API module) -/

/-- A sandbox process as seen by `listProcesses`: its command line, its
status string, and whether a `kill()` call on it would succeed (`killOk`
models the swallowed `try { await proc.kill() } catch {}`). -/
structure ProcInfo where
  command : String
  status : String
  killOk : Bool
deriving DecidableEq, Repr

/-- The gateway-launch signature test of `cleanupOrphanedProcesses`. -/
def isGatewayProc (p : ProcInfo) : Bool :=
  hasSub "start-openclaw.sh" p.command || hasSub "openclaw gateway" p.command ||
    hasSub "start-moltbot.sh" p.command || hasSub "clawdbot gateway" p.command

/-- The kill condition of the per-process loop:
`!isGateway && (proc.status === 'running' || proc.status === 'starting')`. -/
def isOrphanTarget (p : ProcInfo) : Bool :=
  !isGatewayProc p && (p.status == "running" || p.status == "starting")

/-- Model of `cleanupOrphanedProcesses` from the admin API module, returning the
number of successfully killed processes together with the list of processes a
`kill()` was attempted on, in order. -/
def cleanupOrphanedProcesses (ps : List ProcInfo) : Nat × List ProcInfo :=
  if ps.length ≤ 5 then (0, [])
  else
    ps.foldl
      (fun acc p =>
        if isOrphanTarget p then
          (if p.killOk then acc.1 + 1 else acc.1, acc.2 ++ [p])
        else acc)
      (0, [])

/-! ### Device-listing JSON extraction (admin API module) -/

/-- The JS regex match `stdout.match(/\{[\s\S]*\}/)` on a character list:
scan for the first position holding `'{'` from which some later `'}'` exists;
the greedy `[\s\S]*` then extends the match to the last `'}'` of the text. -/
def jsMatchBraceSpanAux : List Char → Option (List Char)
  | [] => none
  | c :: rest =>
    if c = '{' then
      match lastIdxOf '}' rest with
      | some i => some ('{' :: rest.take (i + 1))
      | none => jsMatchBraceSpanAux rest
    else jsMatchBraceSpanAux rest

/-- The JSON-payload span `stdout.match(/\{[\s\S]*\}/)` extracts, if any. -/
def jsMatchBraceSpan (s : String) : Option String :=
  (jsMatchBraceSpanAux s.data).map String.mk

/-- Index-level description of the same span: from the first `'{'` to the
last `'}'`, provided the former precedes the latter. -/
def braceSpanIdx (s : String) : Option String :=
  match firstIdxOf '{' s.data, lastIdxOf '}' s.data with
  | some i, some j => if i < j then some (String.mk ((s.data.drop i).take (j - i + 1))) else none
  | _, _ => none

/-- Depth-counting scan used by the spec-level "first balanced span" reading:
having consumed a `'{'` (depth ≥ 1), keep scanning until depth returns to 0. -/
def balScan : List Char → Nat → List Char → Option (List Char)
  | [], _, _ => none
  | c :: rest, depth, acc =>
    if c = '{' then balScan rest (depth + 1) (acc ++ [c])
    else if c = '}' then
      if depth = 1 then some (acc ++ [c]) else balScan rest (depth - 1) (acc ++ [c])
    else balScan rest depth (acc ++ [c])

/-- Worker for `firstBalancedSpan`. -/
def firstBalancedSpanAux : List Char → Option (List Char)
  | [] => none
  | c :: rest => if c = '{' then balScan rest 1 [c] else firstBalancedSpanAux rest

/-- Modelled from the spec: "extracting a JSON payload from free-form output
by locating the first balanced `{...}` span" — the first `'{'` together with
the text up to the brace that closes it. -/
def firstBalancedSpan (s : String) : Option String :=
  (firstBalancedSpanAux s.data).map String.mk

/-- The value produced by the devices endpoint's output parsing: either the
parsed JSON payload, or the fallback record
`{ pending: [], paired: [], raw: stdout || 'No output from CLI' }`
represented by its `raw` field. -/
inductive DevicesResult where
  | parsed (v : JValue) : DevicesResult
  | fallback (raw : String) : DevicesResult

/-- The JSON-extraction step of the `GET /devices` handler (and of
`approve-all`): regex-match a brace span, try to parse it, and fall back to
the empty-lists record carrying the raw output. -/
def extractDevices (jp : String → Option JValue) (stdout : String) : DevicesResult :=
  match jsMatchBraceSpan stdout with
  | some span =>
    match jp span with
    | some v => .parsed v
    | none => .fallback (if stdout = "" then "No output from CLI" else stdout)
  | none => .fallback (if stdout = "" then "No output from CLI" else stdout)

/-! ### Concrete fixtures used by witnesses and counterexamples -/

/-- Raw JSON text of a `stdout` find-listing event (one config file). -/
def stdoutJsonW : String :=
  "\x7b\"type\":\"stdout\",\"data\":\"/root/.openclaw/openclaw.json\"\x7d"

/-- Raw JSON text of a `chunk` event carrying the config file's content. -/
def chunkJsonW : String :=
  "\x7b\"type\":\"chunk\",\"data\":\"cfg\"\x7d"

/-- A decoder agreeing with `JSON.parse` on the fixture strings of the sync
witness. -/
def jpW : String → Option JValue := fun s =>
  if s = stdoutJsonW then
    some (.obj [("type", .str "stdout"), ("data", .str "/root/.openclaw/openclaw.json")])
  else if s = chunkJsonW then some (.obj [("type", .str "chunk"), ("data", .str "cfg")])
  else none

/-- A sandbox whose config directory holds one file with content `"cfg"`. -/
def sbW : SandboxApi where
  execStream := fun cmd =>
    if cmd = findCmd "/root/.openclaw" [] then .ok ["data: " ++ stdoutJsonW ++ "\n\n"]
    else .ok [""]
  readFileStream := fun path =>
    if path = "/root/.openclaw/openclaw.json" then .ok ["data: " ++ chunkJsonW ++ "\n\n"]
    else .error ()

/-- Raw JSON text of a `stdout` listing event naming two workspace files. -/
def stdoutJson9 : String :=
  "\x7b\"type\":\"stdout\",\"data\":\"/root/clawd/a.md\\n/root/clawd/empty.md\"\x7d"

/-- Raw JSON text of a `chunk` event with content `"hello"`. -/
def chunkJson9 : String :=
  "\x7b\"type\":\"chunk\",\"data\":\"hello\"\x7d"

/-- Raw JSON text of a `complete` event (a stream with no chunk events). -/
def completeJson9 : String :=
  "\x7b\"type\":\"complete\",\"bytesRead\":0\x7d"

/-- A decoder agreeing with `JSON.parse` on the empty-file fixture strings. -/
def jp9 : String → Option JValue := fun s =>
  if s = stdoutJson9 then
    some (.obj [("type", .str "stdout"), ("data", .str "/root/clawd/a.md\n/root/clawd/empty.md")])
  else if s = chunkJson9 then some (.obj [("type", .str "chunk"), ("data", .str "hello")])
  else if s = completeJson9 then some (.obj [("type", .str "complete"), ("bytesRead", .num 0)])
  else none

/-- A sandbox listing two files of which one streams no chunk events. -/
def sb9 : SandboxApi where
  execStream := fun cmd =>
    if cmd = findCmd "/root/clawd" [] then .ok ["data: " ++ stdoutJson9 ++ "\n\n"]
    else .ok [""]
  readFileStream := fun path =>
    if path = "/root/clawd/a.md" then .ok ["data: " ++ chunkJson9 ++ "\n\n"]
    else if path = "/root/clawd/empty.md" then .ok ["data: " ++ completeJson9 ++ "\n\n"]
    else .error ()

/-- Raw JSON text of a `stdout` listing event with one clean path, one path
containing `omplete`, and one relative path. -/
def stdoutJson10 : String :=
  "\x7b\"type\":\"stdout\",\"data\":\"/root/clawd/notes.md\\n/root/clawd/incomplete.md\\nrel/path\"\x7d"

/-- A decoder agreeing with `JSON.parse` on the listing fixture string. -/
def jp10 : String → Option JValue := fun s =>
  if s = stdoutJson10 then
    some (.obj [("type", .str "stdout"),
      ("data", .str "/root/clawd/notes.md\n/root/clawd/incomplete.md\nrel/path")])
  else none

/-- A sandbox producing the mixed listing above. -/
def sb10 : SandboxApi where
  execStream := fun cmd =>
    if cmd = findCmd "/root/clawd" [] then .ok ["data: " ++ stdoutJson10 ++ "\n\n"]
    else .ok [""]
  readFileStream := fun _ => .error ()

/-- A decoder agreeing with `JSON.parse` on the strings of the devices
counterexample: `"{}"` parses to the empty object, while the regex-extracted
span `"{} }"` fails to parse. -/
def jp0 : String → Option JValue := fun s =>
  if s = "\x7b\x7d" then some (.obj []) else none

/-- Five workspace objects: two restorable, one `.jsonl`, one `.bak`, one
corrupt. -/
def b4W : Bucket :=
  ⟨[("workspace/IDENTITY.md", "# id"), ("workspace/notes/a.md", "notes"),
    ("workspace/chat.jsonl", "log"), ("workspace/conf.bak", "old"),
    ("workspace/bad\"key", "junk")]⟩

/-- A bucket with two clean and two corrupt keys, for the sweep witness. -/
def b2W : Bucket :=
  ⟨[("openclaw/good.json", "a"), ("bad\"key", "b"), ("openclaw/cfg", "c"), ("x\x7by", "d")]⟩

/-- The trivial single-page pagination. -/
def pgOne : List String → List (List String) := fun ks => [ks]

/-- The empty sandbox effect trace. -/
def st0 : SandboxTrace :=
  ⟨[], []⟩

/-! ## Helper lemmas -/

/-- The accumulating loop of `parseSSEEvents` is the in-order `filterMap` of
its per-block decode. -/
theorem parseSSE_fold_eq (jp : String → Option JValue) (blocks : List String) :
    ∀ acc : List JValue,
      blocks.foldl
        (fun events block =>
          let line := jsTrim block
          if line = "" then events
          else
            let jsonStr := if jsStartsWith "data: " line then strDrop line 6 else line
            match jp jsonStr with
            | some v => events ++ [v]
            | none => events)
        acc
      = acc ++ blocks.filterMap
          (fun block =>
            let line := jsTrim block
            if line = "" then none
            else jp (if jsStartsWith "data: " line then strDrop line 6 else line)) := by
  induction blocks with
  | nil => intro acc; simp
  | cons b rest ih =>
    intro acc
    by_cases h : jsTrim b = ""
    · simp only [List.foldl_cons, List.filterMap_cons, h, if_pos rfl]
      simpa [h] using ih acc
    · simp only [List.foldl_cons, List.filterMap_cons, h]
      cases hjp : jp (if jsStartsWith "data: " (jsTrim b) then strDrop (jsTrim b) 6 else jsTrim b) with
      | none => simp [h, hjp, ih acc]
      | some v => simp [h, hjp, ih (acc ++ [v])]

/-! ## C7 -/

/-- C7: the Event Stream Parser, on any raw framed text, splits it on two
consecutive newlines, trims each block, skips blank blocks, strips the fixed
`"data: "` prefix when present, JSON-decodes the remainder, silently drops
every block whose decode fails, and returns the decoded records in input
order; being a total function of the raw text it never throws. -/
theorem parseSSEEvents_eq_spec (jp : String → Option JValue) (raw : String) :
    parseSSEEvents jp raw = parseSSEEventsSpec jp raw := by
  unfold parseSSEEvents parseSSEEventsSpec
  simpa using parseSSE_fold_eq jp (jsSplit "\n\n" raw) []

/-! ## C5 -/

/-- C5 counterexample, refuting both parts of the claim as stated: (a) the
unguarded `await sandbox.startProcess(shellCmd)` can reject, and that
rejection propagates to the caller — even when the reads would have observed
completion — so the runner does raise exceptions; and (b) a first read that
returns partial content without the completion sentinel, followed by a retry
that returns nothing, makes `execCommand` return the partial content — not
the empty string — even though neither read observed completion. -/
theorem execCommand_partial_cex :
    execCommand (.error ()) (some "out __EXEC_DONE__") (some "out __EXEC_DONE__") = .error ()
    ∧ observesDone (some "out __EXEC_DONE__") = true
    ∧ observesDone (some "hello") = false ∧ observesDone none = false
    ∧ execCommand (.ok ()) (some "hello") none = .ok "hello"
    ∧ (Except.ok "hello" : Except Unit String) ≠ .ok "" :=
  ⟨rfl, by decide, by decide, rfl, rfl, by simp⟩

/-- C5 (amended): `execCommand` raises an exception to its caller only when
the initial process-start call rejects (that `await` has no try/catch); every
read-side failure is absorbed.  Once the start succeeds it returns the
observed output-file content with the first occurrence of the completion
sentinel removed and surrounding whitespace trimmed; it returns the empty
string when both reads return no content at all, while a read that yields
content without the sentinel produces that partial content (stripped and
trimmed) rather than the empty string. -/
theorem execCommand_result_spec (ps : Except Unit Unit) (r1 r2 : Option String) :
    (∀ e, ps = .error e → execCommand ps r1 r2 = .error e)
    ∧ (ps = .ok () →
        (r1 = none → r2 = none → execCommand ps r1 r2 = .ok "")
        ∧ (∀ c, r1 = some c → hasSub DONE_MARKER c = true →
            execCommand ps r1 r2 = .ok (jsTrim (replaceFirst c DONE_MARKER)))
        ∧ (∀ c d, r1 = some c → hasSub DONE_MARKER c = false → r2 = some d →
            execCommand ps r1 r2 = .ok (jsTrim (replaceFirst d DONE_MARKER)))
        ∧ (∀ d, r1 = none → r2 = some d →
            execCommand ps r1 r2 = .ok (jsTrim (replaceFirst d DONE_MARKER)))
        ∧ (∀ c, r1 = some c → hasSub DONE_MARKER c = false → r2 = none →
            execCommand ps r1 r2 = .ok (jsTrim (replaceFirst c DONE_MARKER)))) := by
  constructor
  · rintro e rfl
    rfl
  · rintro rfl
    refine ⟨?_, ?_, ?_, ?_, ?_⟩
    · rintro rfl rfl; rfl
    · rintro c rfl h; simp [execCommand, h]
    · rintro c d rfl h rfl; simp [execCommand, h]
    · rintro d rfl rfl; rfl
    · rintro c rfl h rfl; simp [execCommand, h]

/-- Witness for C5: after a successful process start, a first read observing
the sentinel yields the stripped, trimmed output. -/
theorem execCommand_result_spec_witness :
    hasSub DONE_MARKER " ok __EXEC_DONE__" = true ∧
      execCommand (.ok ()) (some " ok __EXEC_DONE__") none = .ok "ok" :=
  ⟨by decide,
    (((execCommand_result_spec (.ok ()) (some " ok __EXEC_DONE__") none).2 rfl).2.1
      " ok __EXEC_DONE__" rfl (by decide)).trans rfl⟩

/-! ## C8 -/

/-- The accumulating loop of `cleanupOrphanedProcesses`, characterised. -/
theorem cleanup_fold (ps : List ProcInfo) :
    ∀ (n : Nat) (ks : List ProcInfo),
      ps.foldl
        (fun acc p =>
          if isOrphanTarget p then
            (if p.killOk then acc.1 + 1 else acc.1, acc.2 ++ [p])
          else acc)
        (n, ks)
      = (n + ((ps.filter isOrphanTarget).filter (fun p => p.killOk)).length,
         ks ++ ps.filter isOrphanTarget) := by
  induction ps with
  | nil => intro n ks; simp
  | cons p rest ih =>
    intro n ks
    by_cases h : isOrphanTarget p = true
    · by_cases hk : p.killOk = true
      · simp [h, hk, ih, Nat.add_comm, Nat.add_assoc, Nat.add_left_comm]
      · simp [h, hk, ih]
    · simp [h, ih]

/-- C8: `cleanupOrphans` is a no-op returning 0 whenever the process listing
has at most 5 entries; on a longer listing it attempts a `kill()` on exactly
the processes that do not match a gateway-launch signature and whose status is
`running` or `starting` (kill errors are swallowed), and returns the number of
those kills that succeeded. -/
theorem cleanupOrphanedProcesses_spec (ps : List ProcInfo) :
    (ps.length ≤ 5 → cleanupOrphanedProcesses ps = (0, []))
    ∧ (5 < ps.length →
        (cleanupOrphanedProcesses ps).2 = ps.filter isOrphanTarget
        ∧ (cleanupOrphanedProcesses ps).1
            = ((ps.filter isOrphanTarget).filter (fun p => p.killOk)).length) := by
  constructor
  · intro h
    simp [cleanupOrphanedProcesses, h]
  · intro h
    have hn : ¬ ps.length ≤ 5 := Nat.not_le.mpr h
    simp [cleanupOrphanedProcesses, hn, cleanup_fold ps 0 []]

/-- Witness for C8: a six-process listing where the two gateway-signature
processes survive, the completed process is skipped, and of the three
attempted kills one fails and is not counted. -/
theorem cleanupOrphanedProcesses_spec_witness :
    5 < ([⟨"bash /start-openclaw.sh", "running", true⟩, ⟨"sleep 1", "running", true⟩,
          ⟨"sleep 2", "completed", true⟩, ⟨"sleep 3", "starting", false⟩,
          ⟨"sleep 4", "running", true⟩, ⟨"openclaw gateway run", "starting", true⟩] :
          List ProcInfo).length
    ∧ cleanupOrphanedProcesses
        [⟨"bash /start-openclaw.sh", "running", true⟩, ⟨"sleep 1", "running", true⟩,
         ⟨"sleep 2", "completed", true⟩, ⟨"sleep 3", "starting", false⟩,
         ⟨"sleep 4", "running", true⟩, ⟨"openclaw gateway run", "starting", true⟩]
        = (2, [⟨"sleep 1", "running", true⟩, ⟨"sleep 3", "starting", false⟩,
               ⟨"sleep 4", "running", true⟩]) := by
  refine ⟨by decide, ?_⟩
  have h := cleanupOrphanedProcesses_spec
    [⟨"bash /start-openclaw.sh", "running", true⟩, ⟨"sleep 1", "running", true⟩,
     ⟨"sleep 2", "completed", true⟩, ⟨"sleep 3", "starting", false⟩,
     ⟨"sleep 4", "running", true⟩, ⟨"openclaw gateway run", "starting", true⟩]
  have h2 := h.2 (by decide)
  have e1 : (cleanupOrphanedProcesses
      [⟨"bash /start-openclaw.sh", "running", true⟩, ⟨"sleep 1", "running", true⟩,
       ⟨"sleep 2", "completed", true⟩, ⟨"sleep 3", "starting", false⟩,
       ⟨"sleep 4", "running", true⟩, ⟨"openclaw gateway run", "starting", true⟩]).2
      = [⟨"sleep 1", "running", true⟩, ⟨"sleep 3", "starting", false⟩,
         ⟨"sleep 4", "running", true⟩] := h2.1.trans (by decide)
  have e2 : (cleanupOrphanedProcesses
      [⟨"bash /start-openclaw.sh", "running", true⟩, ⟨"sleep 1", "running", true⟩,
       ⟨"sleep 2", "completed", true⟩, ⟨"sleep 3", "starting", false⟩,
       ⟨"sleep 4", "running", true⟩, ⟨"openclaw gateway run", "starting", true⟩]).1
      = 2 := h2.2.trans (by decide)
  exact Prod.ext e2 e1

/-! ## C10 -/

/-- Every path accumulated by the stdout-collection loop of
`listContainerFiles` is nonempty, absolute, and clean. -/
theorem listFiles_fold_mem (events : List JValue) :
    ∀ acc : List String,
      (∀ p ∈ acc, p ≠ "" ∧ jsStartsWith "/" p = true ∧ isCleanPath p = true) →
      ∀ p ∈ events.foldl
        (fun acc evt =>
          match evt.getField "type", evt.strField "data" with
          | some (.str "stdout"), some d =>
            acc ++ ((jsSplit "\n" (jsTrim d)).filter
              (fun p => p ≠ "" && jsStartsWith "/" p && isCleanPath p))
          | _, _ => acc)
        acc,
        p ≠ "" ∧ jsStartsWith "/" p = true ∧ isCleanPath p = true := by
  induction events with
  | nil => intro acc hacc p hp; exact hacc p hp
  | cons evt rest ih =>
    intro acc hacc p hp
    rw [List.foldl_cons] at hp
    refine ih _ ?_ p hp
    intro q hq
    split at hq
    · rcases List.mem_append.mp hq with hq | hq
      · exact hacc q hq
      · have hqf := List.of_mem_filter hq
        simp only [Bool.and_eq_true, decide_eq_true_eq] at hqf
        exact ⟨hqf.1.1, hqf.1.2, hqf.2⟩
    · exact hacc q hq

/-- C10: every path admitted by the sync listing is absolute (starts with
`/`) and passes the `isCleanPath` check, and `isCleanPath` rejects any path
containing `tdout`, `omplete`, or `exitCode`, or both `timestamp` and `data`;
consequently the legitimate path `/root/clawd/incomplete.md` is excluded from
every sync listing. -/
theorem listContainerFiles_admitted (jp : String → Option JValue) (sb : SandboxApi)
    (dirPath : String) (ex : List String) (files : List String)
    (h : listContainerFiles jp sb dirPath ex = .ok files) :
    (∀ p ∈ files, jsStartsWith "/" p = true ∧ isCleanPath p = true)
    ∧ (∀ s, (hasSub "tdout" s || hasSub "omplete" s || hasSub "exitCode" s
        || (hasSub "timestamp" s && hasSub "data" s)) = true → isCleanPath s = false)
    ∧ isCleanPath "/root/clawd/incomplete.md" = false
    ∧ "/root/clawd/incomplete.md" ∉ files := by
  have hmem : ∀ p ∈ files, p ≠ "" ∧ jsStartsWith "/" p = true ∧ isCleanPath p = true := by
    unfold listContainerFiles at h
    cases hex : sb.execStream (findCmd dirPath ex) with
    | error e => rw [hex] at h; exact absurd h (by simp)
    | ok chunks =>
      rw [hex] at h
      simp only [Except.ok.injEq] at h
      subst h
      exact listFiles_fold_mem _ [] (by simp)
  refine ⟨fun p hp => ⟨(hmem p hp).2.1, (hmem p hp).2.2⟩, ?_, by decide, ?_⟩
  · intro s hs
    unfold isCleanPath
    split
    · rfl
    · split
      · rfl
      · split
        · rfl
        · split
          · rfl
          · split
            · rfl
            · rename_i h1 h2 h3 h4 h5
              simp only [Bool.or_eq_true, Bool.and_eq_true] at hs h1 h2 h3 h4 h5
              tauto
  · intro hin
    exact absurd ((hmem _ hin).2.2) (by decide)

/-- Witness for C10: a concrete listing whose stdout names a clean path, a
path containing `omplete`, and a relative path admits exactly the clean
absolute one. -/
theorem listContainerFiles_admitted_witness :
    listContainerFiles jp10 sb10 "/root/clawd" [] = .ok ["/root/clawd/notes.md"]
    ∧ "/root/clawd/incomplete.md" ∉ ["/root/clawd/notes.md"] :=
  ⟨rfl,
    (listContainerFiles_admitted jp10 sb10 "/root/clawd" [] ["/root/clawd/notes.md"] rfl).2.2.2⟩

/-! ## Association-list and bucket lemmas -/

/-- Lookup distributes over append. -/
theorem lookup_append_or (l1 l2 : List (String × String)) (k : String) :
    (l1 ++ l2).lookup k
      = match l1.lookup k with
        | some v => some v
        | none => l2.lookup k := by
  induction l1 with
  | nil => simp [List.lookup]
  | cons kv rest ih =>
    cases hk : k == kv.1 with
    | true => simp [List.lookup, hk]
    | false => simp [List.lookup, hk, ih]

/-- Filtering out a *different* key does not change a lookup. -/
theorem lookup_filter_ne (l : List (String × String)) (k k' : String) (h : k ≠ k') :
    (l.filter (fun kv => kv.1 != k')).lookup k = l.lookup k := by
  have hbeq : (k == k') = false := beq_eq_false_iff_ne.mpr h
  induction l with
  | nil => simp
  | cons kv rest ih =>
    by_cases hkv : kv.1 = k'
    · simp [List.filter_cons, List.lookup, hkv, hbeq, ih]
    · have hp : (kv.1 != k') = true := bne_iff_ne.mpr hkv
      cases hk : k == kv.1 with
      | true => simp [List.filter_cons, List.lookup, hp, hk]
      | false => simp [List.filter_cons, List.lookup, hp, hk, ih]

/-- Filtering out a key makes its lookup fail. -/
theorem lookup_filter_self (l : List (String × String)) (k : String) :
    (l.filter (fun kv => kv.1 != k)).lookup k = none := by
  induction l with
  | nil => simp
  | cons kv rest ih =>
    by_cases hkv : kv.1 = k
    · simp [List.filter_cons, hkv, ih]
    · have hp : (kv.1 != k) = true := bne_iff_ne.mpr hkv
      have hne : (k == kv.1) = false := beq_eq_false_iff_ne.mpr (fun hkk => hkv hkk.symm)
      simp [List.filter_cons, List.lookup, hp, hne, ih]

/-- Reading after `put` at the same key returns the new value. -/
theorem Bucket.get_put_self (b : Bucket) (k v : String) :
    (b.put k v).get k = some v := by
  unfold Bucket.put Bucket.get
  rw [lookup_append_or, lookup_filter_self]
  simp [List.lookup]

/-- Reading after `put` at a different key is unchanged. -/
theorem Bucket.get_put_ne (b : Bucket) (k k' v : String) (h : k ≠ k') :
    (b.put k' v).get k = b.get k := by
  unfold Bucket.put Bucket.get
  rw [lookup_append_or, lookup_filter_ne _ _ _ h]
  cases hl : b.objs.lookup k with
  | some w => simp
  | none =>
    have hne : (k == k') = false := beq_eq_false_iff_ne.mpr h
    simp [List.lookup, hne]

/-- Reading after `delete` of a different key is unchanged. -/
theorem Bucket.get_delete_ne (b : Bucket) (k k' : String) (h : k ≠ k') :
    (b.delete k').get k = b.get k := by
  unfold Bucket.delete Bucket.get
  exact lookup_filter_ne _ _ _ h

/-- A key appearing among the first components has a successful lookup. -/
theorem lookup_isSome_of_mem_fst (l : List (String × String)) (k : String)
    (h : k ∈ l.map Prod.fst) : (l.lookup k).isSome = true := by
  induction l with
  | nil => simp at h
  | cons kv rest ih =>
    rw [List.map_cons] at h
    rcases List.mem_cons.mp h with hk | hk
    · have hbeq : (k == kv.1) = true := beq_iff_eq.mpr hk
      simp [List.lookup, hbeq]
    · cases hbeq : k == kv.1 with
      | true => simp [List.lookup, hbeq]
      | false =>
        simp only [List.lookup, hbeq]
        exact ih hk

/-- A listed bucket key has a stored value. -/
theorem Bucket.get_isSome_of_mem_keys (b : Bucket) (k : String) (h : k ∈ b.keys) :
    (b.get k).isSome = true :=
  lookup_isSome_of_mem_fst b.objs k h

/-! ## C2 -/

/-- The delete loop of the corruption sweep over a flat key list removes
exactly the corrupt listed keys. -/
theorem cleanFold_objs (keys : List String) :
    ∀ bb : Bucket,
      (keys.foldl (fun b k => if isCorruptKey k then b.delete k else b) bb).objs
        = bb.objs.filter (fun kv => !(isCorruptKey kv.1 && keys.contains kv.1)) := by
  induction keys with
  | nil =>
    intro bb
    simp
  | cons k keys ih =>
    intro bb
    rw [List.foldl_cons, ih]
    by_cases hc : isCorruptKey k = true
    · rw [if_pos hc]
      show ((⟨bb.objs.filter (fun kv => kv.1 != k)⟩ : Bucket).objs).filter _ = _
      rw [List.filter_filter]
      apply List.filter_congr
      intro kv _
      by_cases he : kv.1 = k
      · simp [he, hc]
      · simp [he, bne_iff_ne.mpr he]
    · rw [if_neg hc]
      apply List.filter_congr
      intro kv _
      have hcf : isCorruptKey k = false := by simpa using hc
      by_cases he : kv.1 = k
      · simp [he, hcf]
      · simp [he]

/-- C2 counterexample: the key `a}b` contains a brace, yet a full sweep pass
over a listing containing it deletes nothing — the sweep only tests for `"`,
`{` and backslash-n, not for the closing brace. -/
theorem cleanCorruptedR2Keys_closing_brace_cex :
    hasSub "\x7d" "a\x7db" = true
    ∧ [["a\x7db"]].flatten = (Bucket.mk [("a\x7db", "v")]).keys
    ∧ cleanCorruptedR2Keys [["a\x7db"]] (Bucket.mk [("a\x7db", "v")])
        = Bucket.mk [("a\x7db", "v")] :=
  ⟨by decide, by decide, by decide⟩

/-- C2 (amended): on every sweep pass, walking the entire paginated listing
(`pages.flatten` enumerates the listed keys) deletes exactly those keys whose
name contains a double quote, an opening brace `{`, or a literal backslash-n
sequence, leaving every other key — including keys containing only a closing
brace — untouched. -/
theorem cleanCorruptedR2Keys_filter (b : Bucket) (pages : List (List String))
    (hpg : pages.flatten = b.keys) :
    (cleanCorruptedR2Keys pages b).objs
      = b.objs.filter (fun kv => !isCorruptKey kv.1) := by
  unfold cleanCorruptedR2Keys
  rw [← List.foldl_flatten, hpg, cleanFold_objs]
  apply List.filter_congr
  intro kv hkv
  have hmem : kv.1 ∈ b.keys := List.mem_map_of_mem Prod.fst hkv
  simp [hmem]

/-- Witness for C2: a two-page listing of four keys; the sweep deletes the
two corrupt ones and keeps the two clean ones. -/
theorem cleanCorruptedR2Keys_filter_witness :
    ([["openclaw/good.json", "bad\"key"], ["openclaw/cfg", "x\x7by"]] :
        List (List String)).flatten = b2W.keys
    ∧ (cleanCorruptedR2Keys [["openclaw/good.json", "bad\"key"], ["openclaw/cfg", "x\x7by"]]
        b2W).objs = [("openclaw/good.json", "a"), ("openclaw/cfg", "c")] :=
  ⟨by decide,
    (cleanCorruptedR2Keys_filter b2W
      [["openclaw/good.json", "bad\"key"], ["openclaw/cfg", "x\x7by"]] (by decide)).trans
      (by decide)⟩

/-! ## C3 -/

/-- C3: when object storage holds no `.last-sync` key, restore reports that
nothing was restored (the source returns `false`, i.e. zero files) and
performs no sandbox operation at all — the effect trace records no `writeFile`
and no `mkdir` call. -/
theorem restoreFromR2_no_marker (pg : List String → List (List String)) (b : Bucket)
    (st : SandboxTrace) (h : b.get ".last-sync" = none) :
    restoreFromR2 pg b true st = (false, st) := by
  unfold restoreFromR2
  simp [h]

/-- Witness for C3: a bucket holding one object but no marker. -/
theorem restoreFromR2_no_marker_witness :
    (Bucket.mk [("openclaw/x", "v")]).get ".last-sync" = none
    ∧ restoreFromR2 pgOne (Bucket.mk [("openclaw/x", "v")]) true st0 = (false, st0) :=
  ⟨by decide, restoreFromR2_no_marker pgOne (Bucket.mk [("openclaw/x", "v")]) st0 (by decide)⟩

/-! ## C4 -/

/-- The cached mkdir never writes a file. -/
theorem mkdirCached_writes (st : SandboxTrace) (d : String) (cache : List String) :
    (mkdirCached st d cache).1.writes = st.writes := by
  unfold mkdirCached
  split
  · rfl
  · rfl

/-- The parent-directory step never writes a file. -/
theorem ensureParentDir_writes (st : SandboxTrace) (cache : List String) (cp : String) :
    (ensureParentDir st cache cp).1.writes = st.writes := by
  unfold ensureParentDir
  cases lastIdxOf '/' cp.data with
  | none => rfl
  | some i =>
    by_cases hi : 0 < i
    · simp [hi, mkdirCached_writes]
    · simp [hi]

/-- A key that extends a `/`-terminated namespace and is not a directory
marker has a nonempty relative path. -/
theorem strDrop_ne_empty_of_pfx (pfx k : String) (hpre : jsStartsWith pfx k = true)
    (hslash : jsEndsWith "/" pfx = true) (hnoslash : jsEndsWith "/" k = false) :
    strDrop k pfx.length ≠ "" := by
  obtain ⟨t, ht⟩ := List.isPrefixOf_iff_prefix.mp hpre
  intro hempty
  have hdata : (k.data.drop pfx.length) = [] := by
    simpa [strDrop] using congrArg String.data hempty
  rw [← ht, show pfx.length = pfx.data.length from rfl, List.drop_left] at hdata
  subst hdata
  have hk : k = pfx := by
    cases k
    cases pfx
    simp_all
  rw [hk] at hnoslash
  rw [hnoslash] at hslash
  exact Bool.false_ne_true hslash

/-- A key the restore loop does not skip is not a directory marker. -/
theorem not_dirmarker_of_not_skip (k : String) (h : shouldSkipKey k = false) :
    jsEndsWith "/" k = false := by
  by_contra hc
  have hc' : jsEndsWith "/" k = true := by simpa using hc
  simp [shouldSkipKey, hc'] at h

/-- The per-object loop of the restore pass, characterised: it writes exactly
the non-skipped keys' files, in listing order, and counts them. -/
theorem restore_fold (b : Bucket) (dir pfx : String) (keys : List String) :
    ∀ (st : SandboxTrace) (cache : List String) (n : Nat),
      (∀ k ∈ keys, (b.get k).isSome = true
        ∧ (shouldSkipKey k = false → strDrop k pfx.length ≠ "")) →
      ((keys.foldl (restoreStep b dir pfx) (st, cache, n)).1.writes
          = st.writes ++ (keys.filter (fun k => !shouldSkipKey k)).map
              (fun k => (dir ++ "/" ++ strDrop k pfx.length, (b.get k).getD "")))
      ∧ (keys.foldl (restoreStep b dir pfx) (st, cache, n)).2.2
          = n + (keys.filter (fun k => !shouldSkipKey k)).length := by
  induction keys with
  | nil =>
    intro st cache n _
    simp
  | cons k keys ih =>
    intro st cache n hmem
    have hmemr : ∀ q ∈ keys, (b.get q).isSome = true
        ∧ (shouldSkipKey q = false → strDrop q pfx.length ≠ "") :=
      fun q hq => hmem q (List.mem_cons_of_mem _ hq)
    rw [List.foldl_cons]
    by_cases hsk : shouldSkipKey k = true
    · have hstep : restoreStep b dir pfx (st, cache, n) k = (st, cache, n) := by
        unfold restoreStep
        rw [if_pos hsk]
      rw [hstep]
      have hres := ih st cache n hmemr
      constructor
      · rw [hres.1]
        simp [List.filter_cons, hsk]
      · rw [hres.2]
        simp [List.filter_cons, hsk]
    · have hs : shouldSkipKey k = false := by simpa using hsk
      have hrel : strDrop k pfx.length ≠ "" := (hmem k (List.mem_cons_self k keys)).2 hs
      obtain ⟨v, hv⟩ := Option.isSome_iff_exists.mp ((hmem k (List.mem_cons_self k keys)).1)
      have hw : (restoreStep b dir pfx (st, cache, n) k).1.writes
          = st.writes ++ [(dir ++ "/" ++ strDrop k pfx.length, v)] := by
        unfold restoreStep
        rw [if_neg hsk, if_neg hrel]
        simp [hv, SandboxTrace.writeFile, ensureParentDir_writes]
      have hn : (restoreStep b dir pfx (st, cache, n) k).2.2 = n + 1 := by
        unfold restoreStep
        rw [if_neg hsk, if_neg hrel]
        simp [hv]
      rcases hacc : restoreStep b dir pfx (st, cache, n) k with ⟨st', cache', n'⟩
      rw [hacc] at hw hn
      have hres := ih st' cache' n' hmemr
      constructor
      · rw [hres.1]
        simp only at hw
        rw [hw]
        simp [List.filter_cons, hs, hv, List.append_assoc]
      · rw [hres.2]
        simp only at hn
        rw [hn]
        simp [List.filter_cons, hs]
        omega

/-- C4 counterexample: the object key `workspace/a.bakery` does not end in a
directory marker, does not have the excluded extension `.jsonl` or `.bak`, and
does not match the corruption signature, yet a restore pass over a listing
containing exactly that object writes nothing — the skip test matches the
excluded extensions as substrings (`includes`), and `.bakery` contains
`.bak`. -/
theorem restoreObjects_substring_cex :
    jsEndsWith "/" "workspace/a.bakery" = false
    ∧ jsEndsWith ".jsonl" "workspace/a.bakery" = false
    ∧ jsEndsWith ".bak" "workspace/a.bakery" = false
    ∧ isCorruptKey "workspace/a.bakery" = false
    ∧ restoreObjects (Bucket.mk [("workspace/a.bakery", "v")])
        [["workspace/a.bakery"]] st0 "workspace/" "/root/clawd"
      = (⟨[], ["/root/clawd"]⟩, 0) :=
  ⟨by decide, by decide, by decide, by decide, by decide⟩

/-- C4 (amended): for every paginated object-storage listing under a
`/`-terminated namespace mapping, the restore pass writes a sandbox file for
exactly those objects whose key does not end in a directory marker, does not
*contain* an excluded-extension substring (`.jsonl`, `.bak`), and does not
match the corruption signature — in listing order and with the stored
contents; in particular, for a listing of 5 objects where 2 contain
excluded-extension substrings and 1 has a corrupt key, restore writes exactly
2 files. -/
theorem restoreObjects_writes (b : Bucket) (pages : List (List String))
    (st : SandboxTrace) (pfx dir : String)
    (hpg : pages.flatten = keysUnder b pfx)
    (hslash : jsEndsWith "/" pfx = true) :
    (restoreObjects b pages st pfx dir).2
        = ((keysUnder b pfx).filter (fun k => !shouldSkipKey k)).length
    ∧ (restoreObjects b pages st pfx dir).1.writes
        = st.writes ++ ((keysUnder b pfx).filter (fun k => !shouldSkipKey k)).map
            (fun k => (dir ++ "/" ++ strDrop k pfx.length, (b.get k).getD "")) := by
  have hmem : ∀ k ∈ keysUnder b pfx, (b.get k).isSome = true
      ∧ (shouldSkipKey k = false → strDrop k pfx.length ≠ "") := by
    intro k hk
    unfold keysUnder at hk
    have hk2 := List.mem_filter.mp hk
    refine ⟨Bucket.get_isSome_of_mem_keys b k hk2.1, fun hs => ?_⟩
    exact strDrop_ne_empty_of_pfx pfx k hk2.2 hslash (not_dirmarker_of_not_skip k hs)
  have hres := restore_fold b dir pfx (keysUnder b pfx)
    (mkdirCached st dir []).1 (mkdirCached st dir []).2 0 hmem
  simp only [restoreObjects]
  rw [← List.foldl_flatten, hpg]
  constructor
  · simpa using hres.2
  · have hw := hres.1
    rw [mkdirCached_writes] at hw
    simpa using hw

/-- Witness for C4: a two-page listing of five objects of which two contain
excluded-extension substrings and one has a corrupt key; exactly the other
two are written. -/
theorem restoreObjects_writes_witness :
    ([["workspace/IDENTITY.md", "workspace/notes/a.md", "workspace/chat.jsonl"],
      ["workspace/conf.bak", "workspace/bad\"key"]] : List (List String)).flatten
        = keysUnder b4W "workspace/"
    ∧ jsEndsWith "/" "workspace/" = true
    ∧ (restoreObjects b4W
        [["workspace/IDENTITY.md", "workspace/notes/a.md", "workspace/chat.jsonl"],
         ["workspace/conf.bak", "workspace/bad\"key"]] st0 "workspace/" "/root/clawd").2 = 2
    ∧ (restoreObjects b4W
        [["workspace/IDENTITY.md", "workspace/notes/a.md", "workspace/chat.jsonl"],
         ["workspace/conf.bak", "workspace/bad\"key"]] st0 "workspace/" "/root/clawd").1.writes
      = [("/root/clawd/IDENTITY.md", "# id"), ("/root/clawd/notes/a.md", "notes")] := by
  have h := restoreObjects_writes b4W
    [["workspace/IDENTITY.md", "workspace/notes/a.md", "workspace/chat.jsonl"],
     ["workspace/conf.bak", "workspace/bad\"key"]] st0 "workspace/" "/root/clawd"
    (by decide) (by decide)
  exact ⟨by decide, by decide, h.1.trans (by decide), h.2.trans (by decide)⟩

/-! ## C9 -/

/-- Filtering with a predicate that fails on some member strictly shrinks the
list. -/
theorem length_filter_lt {α : Type} (P : α → Bool) (l : List α) (a : α)
    (ha : a ∈ l) (hP : P a = false) : (l.filter P).length < l.length := by
  induction l with
  | nil => simp at ha
  | cons x l ih =>
    rcases List.mem_cons.mp ha with h | h
    · subst h
      simp only [List.filter_cons, hP, Bool.false_eq_true, if_false, List.length_cons]
      exact Nat.lt_succ_of_le (List.length_filter_le P l)
    · by_cases hx : P x = true
      · simp only [List.filter_cons, hx, if_true, List.length_cons]
        exact Nat.succ_lt_succ (ih h)
      · have hx' : P x = false := by simpa using hx
        simp only [List.filter_cons, hx', Bool.false_eq_true, if_false, List.length_cons]
        exact Nat.lt_succ_of_lt (ih h)

/-- The upload fold leaves every key other than the uploaded ones alone. -/
theorem get_putFold_ne (jp : String → Option JValue) (sb : SandboxApi)
    (dir pfx : String) (l : List String) (K : String)
    (hK : ∀ q ∈ l, r2KeyOf dir pfx q ≠ K) :
    ∀ b : Bucket,
      (l.foldl (fun bb q => bb.put (r2KeyOf dir pfx q) ((readFileContent jp sb q).getD "")) b).get K
        = b.get K := by
  induction l with
  | nil => intro b; rfl
  | cons q l ih =>
    intro b
    rw [List.foldl_cons, ih (fun r hr => hK r (List.mem_cons_of_mem _ hr))]
    exact Bucket.get_put_ne b K _ _ (fun h => hK q (List.mem_cons_self q l) h.symm)

/-- The per-file upload loop of `syncDirectory`, characterised: it uploads
exactly the kept files (successful read, nonempty reconstructed content), in
order, and counts them. -/
theorem syncFold_char (jp : String → Option JValue) (sb : SandboxApi)
    (dir pfx : String) (files : List String) :
    ∀ (b : Bucket) (n : Nat),
      files.foldl (syncStep jp sb dir pfx) (b, n)
        = ((files.filter (keepFile jp sb)).foldl
            (fun bb q => bb.put (r2KeyOf dir pfx q) ((readFileContent jp sb q).getD "")) b,
           n + (files.filter (keepFile jp sb)).length) := by
  induction files with
  | nil => intro b n; simp
  | cons f files ih =>
    intro b n
    rw [List.foldl_cons]
    cases hrc : readFileContent jp sb f with
    | none =>
      have hk : keepFile jp sb f = false := by simp [keepFile, hrc]
      have hstep : syncStep jp sb dir pfx (b, n) f = (b, n) := by
        unfold syncStep
        rw [hrc]
      rw [hstep, ih]
      simp [List.filter_cons, hk]
    | some c =>
      by_cases hc : c = ""
      · have hk : keepFile jp sb f = false := by simp [keepFile, hrc, hc]
        have hstep : syncStep jp sb dir pfx (b, n) f = (b, n) := by
          unfold syncStep
          rw [hrc]
          simp [hc]
        rw [hstep, ih]
        simp [List.filter_cons, hk]
      · have hk : keepFile jp sb f = true := by
          simp [keepFile, hrc]
          exact hc
        have hstep : syncStep jp sb dir pfx (b, n) f
            = (b.put (r2KeyOf dir pfx f) c, n + 1) := by
          unfold syncStep
          rw [hrc]
          simp [hc]
        rw [hstep, ih]
        refine Prod.ext ?_ ?_
        · simp [List.filter_cons, hk, hrc]
        · simp [List.filter_cons, hk]
          omega

/-- C9: during a sync pass, a listed file whose reconstructed content (the
in-order concatenation of its chunk events) is the empty string is not
uploaded and not counted: the synced-file count equals the number of kept
files, is strictly below the listing size, and the empty file's object key is
left exactly as it was. -/
theorem syncDirectory_skips_empty (jp : String → Option JValue) (sb : SandboxApi)
    (b : Bucket) (dir pfx : String) (ex : List String) (files : List String) (p : String)
    (hls : listContainerFiles jp sb dir ex = .ok files)
    (hp : p ∈ files)
    (hempty : readFileContent jp sb p = some "")
    (hkey : ∀ q ∈ files, r2KeyOf dir pfx q = r2KeyOf dir pfx p → q = p) :
    ∃ b' n, syncDirectory jp sb b dir pfx ex = .ok (b', n)
      ∧ n = (files.filter (keepFile jp sb)).length
      ∧ n < files.length
      ∧ b'.get (r2KeyOf dir pfx p) = b.get (r2KeyOf dir pfx p) := by
  have hkeep : keepFile jp sb p = false := by simp [keepFile, hempty]
  have hsd : syncDirectory jp sb b dir pfx ex
      = .ok (files.foldl (syncStep jp sb dir pfx) (b, 0)) := by
    unfold syncDirectory
    rw [hls]
  rw [hsd, syncFold_char]
  refine ⟨_, _, rfl, by simp, ?_, ?_⟩
  · simpa using length_filter_lt (keepFile jp sb) files p hp hkeep
  · apply get_putFold_ne
    intro q hq hqk
    have hqf := List.mem_filter.mp hq
    have : q = p := hkey q hqf.1 hqk
    rw [this] at hqf
    rw [hkeep] at hqf
    exact absurd hqf.2 (by simp)

/-- Witness for C9: a listing of two files of which one streams no chunk
events; the sync uploads one file, and the stale object stored under the
empty file's key is untouched. -/
theorem syncDirectory_skips_empty_witness :
    listContainerFiles jp9 sb9 "/root/clawd" [] = .ok ["/root/clawd/a.md", "/root/clawd/empty.md"]
    ∧ readFileContent jp9 sb9 "/root/clawd/empty.md" = some ""
    ∧ ∃ b' n, syncDirectory jp9 sb9 (Bucket.mk [("workspace/empty.md", "stale")])
        "/root/clawd" "workspace" [] = .ok (b', n)
      ∧ n = (["/root/clawd/a.md", "/root/clawd/empty.md"].filter (keepFile jp9 sb9)).length
      ∧ n < (["/root/clawd/a.md", "/root/clawd/empty.md"] : List String).length
      ∧ b'.get (r2KeyOf "/root/clawd" "workspace" "/root/clawd/empty.md")
          = (Bucket.mk [("workspace/empty.md", "stale")]).get
              (r2KeyOf "/root/clawd" "workspace" "/root/clawd/empty.md") :=
  ⟨rfl, rfl,
    syncDirectory_skips_empty jp9 sb9 (Bucket.mk [("workspace/empty.md", "stale")])
      "/root/clawd" "workspace" [] ["/root/clawd/a.md", "/root/clawd/empty.md"]
      "/root/clawd/empty.md" rfl (by decide) rfl (by decide)⟩

/-! ## C6 -/

/-- The recursive model of the greedy regex `/\{[\s\S]*\}/` agrees with its
index-level description: the span from the first `{` to the last `}`. -/
theorem braceSpanAux_eq_idx (l : List Char) :
    jsMatchBraceSpanAux l
      = match firstIdxOf '{' l, lastIdxOf '}' l with
        | some i, some j => if i < j then some ((l.drop i).take (j - i + 1)) else none
        | _, _ => none := by
  induction l with
  | nil => rfl
  | cons c rest ih =>
    by_cases hc : c = '{'
    · subst hc
      rw [show jsMatchBraceSpanAux ('{' :: rest)
          = (match lastIdxOf '}' rest with
             | some i => some ('{' :: rest.take (i + 1))
             | none => jsMatchBraceSpanAux rest) from by
        rw [jsMatchBraceSpanAux, if_pos rfl]]
      have hfirst : firstIdxOf '{' ('{' :: rest) = some 0 := by
        rw [firstIdxOf, if_pos rfl]
      cases hrest : lastIdxOf '}' rest with
      | some k =>
        have hlast : lastIdxOf '}' ('{' :: rest) = some (k + 1) := by
          rw [lastIdxOf, hrest]
        rw [hfirst, hlast]
        simp
      | none =>
        have hlast : lastIdxOf '}' ('{' :: rest) = none := by
          rw [lastIdxOf, hrest, if_neg (by decide)]
        rw [ih, hrest, hfirst, hlast]
        cases firstIdxOf '{' rest <;> rfl
    · rw [show jsMatchBraceSpanAux (c :: rest) = jsMatchBraceSpanAux rest from by
        rw [jsMatchBraceSpanAux, if_neg hc]]
      have hfirst : firstIdxOf '{' (c :: rest) = (firstIdxOf '{' rest).map (· + 1) := by
        rw [firstIdxOf, if_neg hc]
      rw [ih, hfirst]
      cases hfr : firstIdxOf '{' rest with
      | none =>
        cases hlr : lastIdxOf '}' rest with
        | some jr =>
          have hlast : lastIdxOf '}' (c :: rest) = some (jr + 1) := by
            rw [lastIdxOf, hlr]
          rw [hlast]
          rfl
        | none =>
          by_cases hcc : c = '}'
          · have hlast : lastIdxOf '}' (c :: rest) = some 0 := by
              rw [lastIdxOf, hlr, if_pos hcc]
            rw [hlast]
            rfl
          · have hlast : lastIdxOf '}' (c :: rest) = none := by
              rw [lastIdxOf, hlr, if_neg hcc]
            rw [hlast]
            rfl
      | some ir =>
        cases hlr : lastIdxOf '}' rest with
        | some jr =>
          have hlast : lastIdxOf '}' (c :: rest) = some (jr + 1) := by
            rw [lastIdxOf, hlr]
          rw [hlast]
          have harith : jr + 1 - (ir + 1) + 1 = jr - ir + 1 := by omega
          by_cases hij : ir < jr
          · have hij2 : ir + 1 < jr + 1 := by omega
            simp [hij, hij2, harith]
          · have hij2 : ¬ (ir + 1 < jr + 1) := by omega
            simp [hij, hij2]
        | none =>
          by_cases hcc : c = '}'
          · have hlast : lastIdxOf '}' (c :: rest) = some 0 := by
              rw [lastIdxOf, hlr, if_pos hcc]
            rw [hlast]
            simp
          · have hlast : lastIdxOf '}' (c :: rest) = none := by
              rw [lastIdxOf, hlr, if_neg hcc]
            rw [hlast]
            rfl

/-- C6 counterexample: on the output `{} }` a balanced `{...}` span exists
(`{}`) and parses as JSON, yet the handler degrades to the fallback record —
its regex grabs the maximal span `{} }`, which fails to parse. -/
theorem extractDevices_balanced_cex :
    firstBalancedSpan "\x7b\x7d \x7d" = some "\x7b\x7d"
    ∧ jp0 "\x7b\x7d" = some (.obj [])
    ∧ extractDevices jp0 "\x7b\x7d \x7d" = .fallback "\x7b\x7d \x7d" :=
  ⟨rfl, rfl, rfl⟩

/-- C6 (amended): the device-listing operation extracts the gateway CLI's
JSON payload by taking the span of the command output from its *first* `{` to
its *last* `}` (the greedy regex match), and when no such span exists or it
fails to parse as JSON the result degrades to the fallback record carrying
the raw output (`'No output from CLI'` when empty) rather than an
exception. -/
theorem extractDevices_spec (jp : String → Option JValue) (stdout : String) :
    extractDevices jp stdout
      = match braceSpanIdx stdout with
        | some span =>
          match jp span with
          | some v => .parsed v
          | none => .fallback (if stdout = "" then "No output from CLI" else stdout)
        | none => .fallback (if stdout = "" then "No output from CLI" else stdout) := by
  unfold extractDevices jsMatchBraceSpan braceSpanIdx
  rw [braceSpanAux_eq_idx]
  cases firstIdxOf '{' stdout.data with
  | none => rfl
  | some i =>
    cases lastIdxOf '}' stdout.data with
    | none => rfl
    | some j =>
      by_cases hij : i < j
      · simp [hij]
      · simp [hij]

/-! ## C1 -/

/-- A directory probe that reports files implies a successful listing. -/
theorem dirHasFiles_ok (jp : String → Option JValue) (sb : SandboxApi) (dirPath : String)
    (h : dirHasFiles jp sb dirPath = true) :
    ∃ files, listContainerFiles jp sb dirPath [] = .ok files := by
  cases hl : listContainerFiles jp sb dirPath [] with
  | ok files => exact ⟨files, rfl⟩
  | error e =>
    unfold dirHasFiles at h
    rw [hl] at h
    simp at h

/-- A found config directory has a successful listing. -/
theorem detect_ok (jp : String → Option JValue) (sb : SandboxApi) (d : String)
    (h : detectConfigDir jp sb = some d) :
    ∃ files, listContainerFiles jp sb d [] = .ok files := by
  unfold detectConfigDir at h
  by_cases h1 : dirHasFiles jp sb "/root/.openclaw" = true
  · rw [if_pos h1] at h
    have hd : d = "/root/.openclaw" := by simpa using h.symm
    rw [hd]
    exact dirHasFiles_ok jp sb _ h1
  · rw [if_neg h1] at h
    by_cases h2 : dirHasFiles jp sb "/root/.clawdbot" = true
    · rw [if_pos h2] at h
      have hd : d = "/root/.clawdbot" := by simpa using h.symm
      rw [hd]
      exact dirHasFiles_ok jp sb _ h2
    · rw [if_neg h2] at h
      simp at h

/-- Once the config listing succeeds, the three-tree sync phase cannot throw:
the workspace and skills listings are guarded by their own catches. -/
theorem syncTrees_ok (jp : String → Option JValue) (sb : SandboxApi) (b1 : Bucket) (d : String)
    (hok : ∃ files, listContainerFiles jp sb d [] = .ok files) :
    ∃ b2 total, syncTrees jp sb b1 d = .ok (b2, total) := by
  obtain ⟨files, hls⟩ := hok
  have h1 : syncDirectory jp sb b1 d "openclaw" []
      = .ok (files.foldl (syncStep jp sb d "openclaw") (b1, 0)) := by
    unfold syncDirectory
    rw [hls]
  unfold syncTrees
  rw [h1]
  exact ⟨_, _, rfl⟩

/-- The corruption sweep does not touch a non-corrupt key (single page). -/
theorem cleanPage_get_ne (page : List String) (k : String) (hk : isCorruptKey k = false) :
    ∀ b : Bucket,
      (page.foldl (fun bb q => if isCorruptKey q then bb.delete q else bb) b).get k = b.get k := by
  induction page with
  | nil => intro b; rfl
  | cons q page ih =>
    intro b
    rw [List.foldl_cons, ih]
    by_cases hq : isCorruptKey q = true
    · rw [if_pos hq]
      apply Bucket.get_delete_ne
      intro hkq
      rw [hkq, hq] at hk
      exact Bool.true_eq_false.mp hk
    · rw [if_neg hq]

/-- The corruption sweep does not touch a non-corrupt key. -/
theorem clean_get_ne (pages : List (List String)) (b : Bucket) (k : String)
    (hk : isCorruptKey k = false) :
    (cleanCorruptedR2Keys pages b).get k = b.get k := by
  unfold cleanCorruptedR2Keys
  induction pages generalizing b with
  | nil => rfl
  | cons page pages ih =>
    rw [List.foldl_cons, ih]
    exact cleanPage_get_ne page k hk b

/-- A synced object key, which lives under a slash-terminated storage
namespace whose name does not begin with a dot, is never the `.last-sync`
marker. -/
theorem append_slash_ne_marker (pfxS rel : String) (h : pfxS.data.head? ≠ some '.') :
    pfxS ++ "/" ++ rel ≠ ".last-sync" := by
  intro heq
  have hd : pfxS.data ++ '/' :: rel.data = ".last-sync".data := by
    have hdd := congrArg String.data heq
    rw [String.data_append, String.data_append] at hdd
    simpa using hdd
  have hmark : ".last-sync".data = '.' :: "last-sync".data := rfl
  cases hp : pfxS.data with
  | nil =>
    rw [hp, List.nil_append, hmark] at hd
    injection hd with h1 h2
    exact absurd h1 (by decide)
  | cons a l =>
    rw [hp, List.cons_append, hmark] at hd
    injection hd with h1 h2
    apply h
    rw [hp, h1]
    rfl

/-- A successful `syncDirectory` call leaves every key outside its namespace
unchanged. -/
theorem syncDirectory_get_ne (jp : String → Option JValue) (sb : SandboxApi) (b : Bucket)
    (dir pfx : String) (ex : List String) (b' : Bucket) (n : Nat) (K : String)
    (h : syncDirectory jp sb b dir pfx ex = .ok (b', n))
    (hK : ∀ q : String, r2KeyOf dir pfx q ≠ K) :
    b'.get K = b.get K := by
  cases hls : listContainerFiles jp sb dir ex with
  | error e =>
    unfold syncDirectory at h
    rw [hls] at h
    simp at h
  | ok files =>
    unfold syncDirectory at h
    rw [hls] at h
    simp only [Except.ok.injEq] at h
    rw [syncFold_char] at h
    simp only [Prod.mk.injEq] at h
    obtain ⟨hb, -⟩ := h
    rw [← hb]
    exact get_putFold_ne jp sb dir pfx _ K (fun q _ => hK q) b

/-- The optional-tree phase never writes the `.last-sync` marker: its two
namespaces are `workspace/` and `skills/`. -/
theorem syncRest_get_marker (jp : String → Option JValue) (sb : SandboxApi)
    (bc : Bucket) (nc : Nat) :
    (syncRest jp sb (bc, nc)).1.get ".last-sync" = bc.get ".last-sync" := by
  have hworkspace : ∀ q : String, r2KeyOf "/root/clawd" "workspace" q ≠ ".last-sync" :=
    fun q => append_slash_ne_marker "workspace" _ (by decide)
  have hskills : ∀ q : String, r2KeyOf "/root/clawd/skills" "skills" q ≠ ".last-sync" :=
    fun q => append_slash_ne_marker "skills" _ (by decide)
  simp only [syncRest]
  cases h2 : syncDirectory jp sb bc "/root/clawd" "workspace" ["skills"] with
  | error e2 =>
    simp only [catchSync]
    cases h3 : syncDirectory jp sb bc "/root/clawd/skills" "skills" [] with
    | error e3 => simp only [catchSync]
    | ok p3 =>
      simp only [catchSync]
      exact syncDirectory_get_ne jp sb bc "/root/clawd/skills" "skills" [] p3.1 p3.2
        ".last-sync" (by rw [h3]) hskills
  | ok p2 =>
    simp only [catchSync]
    have hw : p2.1.get ".last-sync" = bc.get ".last-sync" :=
      syncDirectory_get_ne jp sb bc "/root/clawd" "workspace" ["skills"] p2.1 p2.2
        ".last-sync" (by rw [h2]) hworkspace
    cases h3 : syncDirectory jp sb p2.1 "/root/clawd/skills" "skills" [] with
    | error e3 =>
      simp only [catchSync]
      exact hw
    | ok p3 =>
      simp only [catchSync]
      rw [syncDirectory_get_ne jp sb p2.1 "/root/clawd/skills" "skills" [] p3.1 p3.2
        ".last-sync" (by rw [h3]) hskills]
      exact hw

/-- The three-tree sync phase never writes the `.last-sync` marker: its three
namespaces are `openclaw/`, `workspace/`, and `skills/`. -/
theorem syncTrees_get_marker (jp : String → Option JValue) (sb : SandboxApi) (b1 : Bucket)
    (d : String) (b2 : Bucket) (total : Nat)
    (h : syncTrees jp sb b1 d = .ok (b2, total)) :
    b2.get ".last-sync" = b1.get ".last-sync" := by
  have hopenclaw : ∀ q : String, r2KeyOf d "openclaw" q ≠ ".last-sync" :=
    fun q => append_slash_ne_marker "openclaw" _ (by decide)
  cases h1 : syncDirectory jp sb b1 d "openclaw" [] with
  | error e =>
    unfold syncTrees at h
    rw [h1] at h
    exact absurd h (by simp)
  | ok p =>
    obtain ⟨bc, nc⟩ := p
    have hred : syncTrees jp sb b1 d = .ok (syncRest jp sb (bc, nc)) := by
      unfold syncTrees
      rw [h1]
    rw [hred] at h
    simp only [Except.ok.injEq] at h
    have hb2 : b2 = (syncRest jp sb (bc, nc)).1 := by
      rw [h]
    rw [hb2, syncRest_get_marker]
    exact syncDirectory_get_ne jp sb b1 d "openclaw" [] bc nc ".last-sync" h1 hopenclaw

/-- Reduction of `syncToR2` once the config probe and the sync phase are
known. -/
theorem syncToR2_eq_of (jp : String → Option JValue) (pg : List String → List (List String))
    (sb : SandboxApi) (b : Bucket) (now d : String) (b2 : Bucket) (total : Nat)
    (hdet : detectConfigDir jp sb = some d)
    (hrun : syncTrees jp sb (cleanCorruptedR2Keys (pg b.keys) b) d = .ok (b2, total)) :
    syncToR2 jp pg sb true b now
      = if total > 0 then
          ({ success := true, lastSync := some now,
             details := some ("Synced " ++ toString total ++ " files to R2 (direct file transfer)") },
           b2.put ".last-sync" now)
        else
          ({ success := false, error := some "Nothing to sync",
             details := some "Config directory exists but contained no syncable files." }, b2) := by
  simp only [syncToR2, hdet, hrun]
  rfl

/-- C1: for every run of `syncToR2` that finds a config directory, the
three-tree sync phase completes with some bucket `b2` and file total; if the
total is zero the run fails with error `"Nothing to sync"` and the
`.last-sync` marker is exactly as it was before the run, and if the total is
positive the run puts the current timestamp under `.last-sync` and returns
success carrying that same timestamp and the total file count (in its
`details`). -/
theorem syncToR2_outcome (jp : String → Option JValue) (pg : List String → List (List String))
    (sb : SandboxApi) (b : Bucket) (now d : String)
    (hdet : detectConfigDir jp sb = some d) :
    ∃ b2 total,
      syncTrees jp sb (cleanCorruptedR2Keys (pg b.keys) b) d = .ok (b2, total)
      ∧ (total = 0 →
          syncToR2 jp pg sb true b now
            = ({ success := false, error := some "Nothing to sync",
                 details := some "Config directory exists but contained no syncable files." },
               b2)
          ∧ b2.get ".last-sync" = b.get ".last-sync")
      ∧ (0 < total →
          syncToR2 jp pg sb true b now
            = ({ success := true, lastSync := some now,
                 details := some ("Synced " ++ toString total ++ " files to R2 (direct file transfer)") },
               b2.put ".last-sync" now)
          ∧ (b2.put ".last-sync" now).get ".last-sync" = some now) := by
  obtain ⟨b2, total, hrun⟩ :=
    syncTrees_ok jp sb (cleanCorruptedR2Keys (pg b.keys) b) d (detect_ok jp sb d hdet)
  have heq := syncToR2_eq_of jp pg sb b now d b2 total hdet hrun
  have hmark : b2.get ".last-sync" = b.get ".last-sync" := by
    rw [syncTrees_get_marker jp sb _ d b2 total hrun]
    exact clean_get_ne (pg b.keys) b ".last-sync" (by decide)
  refine ⟨b2, total, hrun, ?_, ?_⟩
  · intro h0
    refine ⟨?_, hmark⟩
    rw [heq, if_neg (by omega)]
  · intro hpos
    refine ⟨?_, Bucket.get_put_self b2 ".last-sync" now⟩
    rw [heq, if_pos hpos]

/-- Witness for C1: a sandbox with one config file of content `cfg`; the run
finds `/root/.openclaw`, syncs one file, stores the timestamp under
`.last-sync`, and reports success carrying it. -/
theorem syncToR2_outcome_witness :
    detectConfigDir jpW sbW = some "/root/.openclaw"
    ∧ ∃ b2 total,
        syncTrees jpW sbW (cleanCorruptedR2Keys (pgOne (Bucket.mk []).keys) (Bucket.mk []))
          "/root/.openclaw" = .ok (b2, total)
        ∧ (total = 0 →
            syncToR2 jpW pgOne sbW true (Bucket.mk []) "2026-01-01T00:00:00.000Z"
              = ({ success := false, error := some "Nothing to sync",
                   details := some "Config directory exists but contained no syncable files." },
                 b2)
            ∧ b2.get ".last-sync" = (Bucket.mk []).get ".last-sync")
        ∧ (0 < total →
            syncToR2 jpW pgOne sbW true (Bucket.mk []) "2026-01-01T00:00:00.000Z"
              = ({ success := true, lastSync := some "2026-01-01T00:00:00.000Z",
                   details := some ("Synced " ++ toString total
                     ++ " files to R2 (direct file transfer)") },
                 b2.put ".last-sync" "2026-01-01T00:00:00.000Z")
            ∧ (b2.put ".last-sync" "2026-01-01T00:00:00.000Z").get ".last-sync"
                = some "2026-01-01T00:00:00.000Z") :=
  ⟨rfl, syncToR2_outcome jpW pgOne sbW (Bucket.mk []) "2026-01-01T00:00:00.000Z"
    "/root/.openclaw" rfl⟩
